import Mathlib

/-!
Verification of the binary/text type-cast decoders of `psycopg2ct/_impl/typecasts.py`.

The module is shallowly embedded: byte strings become `List Nat` (each entry a
byte value 0..255), Python `str` values handled character-wise become
`List Char`, Python exceptions become an explicit `Err` sum carried in
`Except`, and `decimal.Decimal` arithmetic is modelled as exact rational
arithmetic over `ℚ` (the default decimal-context precision of 28 significant
digits is not modelled; all concrete inputs below stay far within it).
The `cursor` argument threaded through every decoder in the source is unused
by all decoders modelled here and is therefore omitted from the signatures.
-/

/-- Python exceptions raised (or modelled) by the decoders.  `structError` is
`struct.error` (wrong buffer size for the format), `valueError` is the
explicit `ValueError` raised by `parse_int`/`parse_float` on an unexpected
length, `unknownType` is the failed `binary_types[oid]` registry lookup
(a Python `KeyError`; the spec's taxonomy names it `UnknownTypeError`),
`typeError` is the `TypeError` from subscripting the `None` target map in
`register_type`, `indexError` is an out-of-range subscript, and
`assertionError` is a failed `assert`. -/
inductive Err where
  | structError
  | valueError
  | unknownType
  | typeError
  | indexError
  | assertionError
  | invalidOperation
  | floatNotModelled
  deriving DecidableEq, Repr

/-- Decoded Python values produced by the casters.  `floatBits` keeps the raw
big-endian bit pattern of an IEEE-754 double (its numeric interpretation is
not modelled), `dec` is a `decimal.Decimal` as an exact rational, `date` and
`datetime` are proleptic-Gregorian calendar values. -/
inductive PgVal where
  | none
  | bool (b : Bool)
  | int (i : Int)
  | dec (q : ℚ)
  | floatBits (bits : Nat)
  | bytes (bs : List Nat)
  | str (cs : List Char)
  | date (y m d : Int)
  | datetime (y m d hh mi ss us : Int)
  | tuple (fields : List PgVal)
  | arr (elems : List PgVal)

/-! ### Python slicing

`value[a:b]` for Python strings: negative indices count from the end and
everything is clamped into range. -/

/-- Clamp one Python slice index into `[0, n]` for a sequence of length `n`. -/
def pyBound (n : Nat) (x : Int) : Nat :=
  if x < 0 then ((n : Int) + x).toNat else min x.toNat n

/-- Python `v[a:b]`. -/
def pySlice (v : List α) (a b : Int) : List α :=
  let lo := pyBound v.length a
  let hi := pyBound v.length b
  (v.drop lo).take (hi - lo)

/-- Python `v[:b]`. -/
def pyTake (v : List α) (b : Int) : List α := pySlice v 0 b

/-- Python `v[a:]`. -/
def pyDrop (v : List α) (a : Int) : List α := v.drop (pyBound v.length a)

/-! ### Fixed-width big-endian integers (`struct` formats `!h`, `!i`, `!q`) -/

/-- Big-endian byte fold. -/
def bytesToNat (bs : List Nat) : Nat := bs.foldl (fun acc b => acc * 256 + b) 0

/-- The `w`-byte big-endian encoding of `n % 2^(8*w)`. -/
def natToBytesBE : Nat → Nat → List Nat
  | 0, _ => []
  | w + 1, n => natToBytesBE w (n / 256) ++ [n % 256]

/-- Two's-complement reinterpretation of a `w`-byte unsigned value. -/
def toSigned (w : Nat) (n : Nat) : Int :=
  if n < 2 ^ (8 * w - 1) then (n : Int) else (n : Int) - 2 ^ (8 * w)

/-- `w`-byte big-endian two's-complement encoding of `v`. -/
def encodeIntBE (w : Nat) (v : Int) : List Nat :=
  natToBytesBE w (v.emod (2 ^ (8 * w))).toNat

/-- `struct.unpack` of one fixed-width big-endian signed integer from an exact
buffer: `struct.error` unless the buffer is exactly `w` bytes. -/
def unpackExact (w : Nat) (bs : List Nat) : Except Err Int :=
  if bs.length = w then .ok (toSigned w (bytesToNat bs)) else .error .structError

/-- `struct.unpack('!i', v[off:off+4])[0]`. -/
def unpackI32 (v : List Nat) (off : Int) : Except Err Int :=
  unpackExact 4 (pySlice v off (off + 4))

/-- `struct.unpack('!ii', v[off:off+8])`. -/
def unpackI32x2 (v : List Nat) (off : Int) : Except Err (Int × Int) := do
  let bs := pySlice v off (off + 8)
  if bs.length = 8 then
    .ok (toSigned 4 (bytesToNat (bs.take 4)), toSigned 4 (bytesToNat (bs.drop 4)))
  else .error .structError

/-- `struct.unpack('!iii', v[off:off+12])`. -/
def unpackI32x3 (v : List Nat) (off : Int) : Except Err (Int × Int × Int) := do
  let bs := pySlice v off (off + 12)
  if bs.length = 12 then
    .ok (toSigned 4 (bytesToNat (bs.take 4)),
         toSigned 4 (bytesToNat ((bs.drop 4).take 4)),
         toSigned 4 (bytesToNat (bs.drop 8)))
  else .error .structError

/-- `struct.unpack('!hhhh', v[:8])`. -/
def unpackI16x4 (v : List Nat) : Except Err (Int × Int × Int × Int) := do
  let bs := pyTake v 8
  if bs.length = 8 then
    .ok (toSigned 2 (bytesToNat (bs.take 2)),
         toSigned 2 (bytesToNat ((bs.drop 2).take 2)),
         toSigned 2 (bytesToNat ((bs.drop 4).take 2)),
         toSigned 2 (bytesToNat (bs.drop 6)))
  else .error .structError

/-- `struct.unpack('!' + 'h' * n, bs)`: exactly `n` big-endian int16 values
from an exactly `2*n`-byte buffer. -/
def unpackI16List : Nat → List Nat → Except Err (List Int)
  | 0, bs => if bs.isEmpty then .ok [] else .error .structError
  | n + 1, bs =>
    if bs.length = 2 * (n + 1) then do
      let rest ← unpackI16List n (bs.drop 2)
      .ok (toSigned 2 (bytesToNat (bs.take 2)) :: rest)
    else .error .structError

/-! ### Proleptic Gregorian calendar (Python `datetime.date` / `datetime.datetime`)

`datetime.date(2000,1,1) + timedelta(days=v)` and
`datetime.datetime(2000,1,1) + timedelta(microseconds=v)` are modelled by
exact day counts since 1970-01-01 and the standard civil-calendar
conversions. -/

/-- Days from 1970-01-01 to the civil date `y-m-d`. -/
def daysFromCivil (y m d : Int) : Int :=
  let y' := y - (if m ≤ 2 then 1 else 0)
  let era := (if 0 ≤ y' then y' else y' - 399) / 400
  let yoe := (y' - era * 400).toNat
  let mp := (m + (if m ≤ 2 then 9 else -3)).toNat
  let doy := (153 * mp + 2) / 5 + d.toNat - 1
  let doe := yoe * 365 + yoe / 4 - yoe / 100 + doy
  era * 146097 + (doe : Int) - 719468

/-- Civil date `(y, m, d)` of the day `z` days after 1970-01-01. -/
def civilFromDays (z0 : Int) : Int × Int × Int :=
  let z := z0 + 719468
  let era := (if 0 ≤ z then z else z - 146096) / 146097
  let doe := (z - era * 146097).toNat
  let yoe := (doe - doe / 1460 + doe / 36524 - doe / 146096) / 365
  let y := (yoe : Int) + era * 400
  let doy := doe - (365 * yoe + yoe / 4 - yoe / 100)
  let mp := (5 * doy + 2) / 153
  let d := doy - (153 * mp + 2) / 5 + 1
  let m := (mp : Int) + (if mp < 10 then 3 else -9)
  (y + (if m ≤ 2 then 1 else 0), m, (d : Int))

/-- Microseconds in one day. -/
def usPerDay : Int := 86400000000

/-- `datetime.datetime(2000,1,1) + timedelta(microseconds = us)`. -/
def datetimeFromEpochMicros (us : Int) : PgVal :=
  let total := daysFromCivil 2000 1 1 * usPerDay + us
  let days := total.ediv usPerDay
  let tod := total.emod usPerDay
  let c := civilFromDays days
  .datetime c.1 c.2.1 c.2.2
    (tod.ediv 3600000000) ((tod.emod 3600000000).ediv 60000000)
    ((tod.emod 60000000).ediv 1000000) (tod.emod 1000000)

/-! ### Primitive byte-oriented decoders

Each `parse_*` takes the raw value as a byte list and the declared length, as
in the source (the unused `cursor` argument is omitted). -/

/-- `parse_bytea`: `buffer(value[:length])`. -/
def parse_bytea (value : List Nat) (length : Int) : Except Err PgVal :=
  .ok (.bytes (pyTake value length))

/-- `parse_int`: length −1 is NULL, lengths 2/4/8 unpack `!h`/`!i`/`!q` from
`value[:length]`, any other length raises `ValueError`. -/
def parse_int (value : List Nat) (length : Int) : Except Err PgVal :=
  if length = -1 then .ok .none
  else if length = 2 then do
    let v ← unpackExact 2 (pyTake value length); .ok (.int v)
  else if length = 4 then do
    let v ← unpackExact 4 (pyTake value length); .ok (.int v)
  else if length = 8 then do
    let v ← unpackExact 8 (pyTake value length); .ok (.int v)
  else .error .valueError

/-- `parse_bool`: `value[0] == '\x01'`.  Note: the declared length is never
consulted, and an empty payload raises `IndexError`. -/
def parse_bool (value : List Nat) (_length : Int) : Except Err PgVal :=
  match value with
  | [] => .error .indexError
  | b :: _ => .ok (.bool (b == 1))

/-- `parse_float`: length −1 is NULL; length 4 unpacks the 8-byte format `!q`
from the 4-byte slice `value[:4]` (always a `struct.error` — the source's
4-byte branch uses the wrong width); length 8 unpacks an IEEE double, kept
as its raw bit pattern; other lengths raise `ValueError`. -/
def parse_float (value : List Nat) (length : Int) : Except Err PgVal :=
  if length = -1 then .ok .none
  else if length = 4 then do
    let v ← unpackExact 8 (pyTake value length); .ok (.int v)
  else if length = 8 then
    let bs := pyTake value length
    if bs.length = 8 then .ok (.floatBits (bytesToNat bs)) else .error .structError
  else .error .valueError

/-- Number of decimal digits of `n` (the first argument is fuel; `n` itself
is always enough, and this shape reduces inside the kernel). -/
def digits10 : Nat → Nat → Nat
  | _, 0 => 1
  | 0, _ => 1
  | fuel + 1, n => if n < 10 then 1 else digits10 fuel (n / 10) + 1

/-- Number of decimal digits of `n`. -/
def numDigits (n : Nat) : Nat := digits10 n n

/-- The default decimal context's precision. -/
def decPrec : Nat := 28

/-- Round `a / m` (for `m > 0`) to the nearest integer, ties to even
(`ROUND_HALF_EVEN`). -/
def rheDiv (a m : Int) : Int :=
  let f := a.ediv m
  let r := a - f * m
  if 2 * r < m then f
  else if m < 2 * r then f + 1
  else if 2 ∣ f then f else f + 1

/-- A `decimal.Decimal` value: integer coefficient and exponent.  Two
representations of the same value may differ in trailing zeros of the
coefficient, exactly as in the library. -/
structure Dec where
  coeff : Int
  exp : Int
  deriving DecidableEq, Repr

/-- `Decimal(n)` for an int. -/
def Dec.ofInt (n : Int) : Dec := ⟨n, 0⟩

/-- The rational value of a decimal number. -/
def Dec.toRat (x : Dec) : ℚ := (x.coeff : ℚ) * (10 : ℚ) ^ x.exp

/-- The default context applied to an exact operation result: when the
coefficient has more than 28 digits, round it (ties to even) at the excess
positions, raising the exponent accordingly; a carry to 29 digits is
renormalized.  Results with at most 28 coefficient digits pass unchanged. -/
def Dec.ctxRound (x : Dec) : Dec :=
  let nd := numDigits x.coeff.natAbs
  if nd ≤ decPrec then x
  else
    let shift := nd - decPrec
    let c := rheDiv x.coeff (10 ^ shift)
    if c.natAbs = 10 ^ decPrec then ⟨c / 10, x.exp + shift + 1⟩
    else ⟨c, x.exp + (shift : Int)⟩

/-- Exact decimal addition: align to the smaller exponent and add the
coefficients (the ideal result the context then rounds). -/
def Dec.addRaw (a b : Dec) : Dec :=
  let e := min a.exp b.exp
  ⟨a.coeff * 10 ^ (a.exp - e).toNat + b.coeff * 10 ^ (b.exp - e).toNat, e⟩

/-- Context decimal addition. -/
def Dec.add (a b : Dec) : Dec := (Dec.addRaw a b).ctxRound

/-- Exact decimal multiplication. -/
def Dec.mulRaw (a b : Dec) : Dec := ⟨a.coeff * b.coeff, a.exp + b.exp⟩

/-- Context decimal multiplication. -/
def Dec.mul (a b : Dec) : Dec := (Dec.mulRaw a b).ctxRound

/-- `10000 ** weight` under the context: the exact value `10 ^ (4·weight)`
(one significant digit, so the context rounding never changes it; the
library may carry the same value with trailing coefficient zeros, which
affects no later result — rounding positions are counted from the leading
digit). -/
def decPow10000 (w : Int) : Dec := Dec.ctxRound ⟨1, 4 * w⟩

/-- The coefficient `quantize` would produce at target exponent
`-dscale`: the value rescaled exactly when the exponent drops, rounded
ties-to-even when it rises. -/
def quantCoeff (x : Dec) (dscale : Int) : Int :=
  if -dscale ≤ x.exp then x.coeff * 10 ^ (x.exp - (-dscale)).toNat
  else rheDiv x.coeff (10 ^ ((-dscale) - x.exp).toNat)

/-- `Decimal.quantize(Decimal(10) ** -dscale)` under the default context:
rescale to exponent `-dscale`, ties to even, but raise `InvalidOperation`
(trapped by default) when the resulting coefficient needs more than 28
digits. -/
def Dec.quantize (x : Dec) (dscale : Int) : Except Err Dec :=
  if (quantCoeff x dscale).natAbs < 10 ^ decPrec then .ok ⟨quantCoeff x dscale, -dscale⟩
  else .error .invalidOperation

/-- The digit loop of `parse_numeric`: `retval += d * 10000 ** weight` with
`weight` decremented after each digit group, every operation under the
default decimal context. -/
def numericLoop : List Int → Int → Dec → Dec
  | [], _, acc => acc
  | d :: ds, w, acc =>
    numericLoop ds (w - 1) (Dec.add acc (Dec.mul (Dec.ofInt d) (decPow10000 w)))

/-- `parse_numeric`: length −1 is NULL; otherwise unpack the
`(num_digits, weight, sign, dscale)` int16 header from `value[:8]`, the
base-10000 digit groups from `value[8:length]`, sum
`Σ dᵢ·10000^(weight−i)` under the default decimal context, negate when
`sign` is non-zero, and quantize to `dscale` fractional digits —
`InvalidOperation` when the quantized coefficient exceeds the context
precision.  The returned Decimal is reported by its rational value. -/
def parse_numeric (value : List Nat) (length : Int) : Except Err PgVal :=
  if length = -1 then .ok .none
  else do
    let (num_digits, weight, sign, dscale) ← unpackI16x4 value
    let digits ← unpackI16List num_digits.toNat (pySlice value 8 length)
    let retval := numericLoop digits weight (Dec.ofInt 0)
    let retval := if sign ≠ 0 then Dec.mul retval (Dec.ofInt (-1)) else retval
    let q ← Dec.quantize retval dscale
    .ok (.dec q.toRat)

/-- The module-level `integer_datetimes` switch: assigned `False` and then
`True` in the source, so its effective value is `True` (mode A). -/
def integer_datetimes : Bool := true

/-- `parse_timestamp`: asserts the declared length is 8, then (mode A) reads
a big-endian int64 count of microseconds and adds it to 2000-01-01.  The
mode-B branch (`!d`, float64 seconds) involves IEEE arithmetic and is dead
code under `integer_datetimes = true`; it is left unmodelled. -/
def parse_timestamp (value : List Nat) (length : Int) : Except Err PgVal :=
  if length ≠ 8 then .error .assertionError
  else if integer_datetimes then do
    let val ← unpackExact 8 (pyTake value length)
    .ok (datetimeFromEpochMicros val)
  else .error .floatNotModelled

/-- `parse_timestamptz`: `return parse_timestamp(value, length, cursor)` —
the result is deliberately timezone-naive. -/
def parse_timestamptz (value : List Nat) (length : Int) : Except Err PgVal :=
  parse_timestamp value length

/-- `parse_date`: unpack `!i` from `value[:length]` (no NULL check — the
slice is taken even when `length` is −1) and add that many days to
2000-01-01. -/
def parse_date (value : List Nat) (length : Int) : Except Err PgVal := do
  let val ← unpackExact 4 (pyTake value length)
  let c := civilFromDays (daysFromCivil 2000 1 1 + val)
  .ok (.date c.1 c.2.1 c.2.2)

/-! ### The `Type` registry entry and `register_type` -/

/-- The source's `Type` class: a name, the OIDs handled, and at most one of a
byte-oriented `caster` or a value-oriented `py_caster` (`py_caster` takes
only the pre-parsed value). -/
structure PgType where
  name : String
  values : List Int
  caster : Option (List Nat → Int → Except Err PgVal) := Option.none
  py_caster : Option (List Nat → Except Err PgVal) := Option.none

/-- `Type.cast`: dispatch to `py_caster` when present, else to `caster`
(calling a `None` caster raises `TypeError`). -/
def PgType.cast (t : PgType) (value : List Nat) (length : Int) : Except Err PgVal :=
  match t.py_caster with
  | some f => f value
  | Option.none =>
    match t.caster with
    | some f => f value length
    | Option.none => .error .typeError

/-- One connection-scoped, one cursor-scoped and the global OID→Type mapping
(`binary_types`); the maps are total functions with `Option` values. -/
structure RegState where
  globalMap : Int → Option PgType
  connMap : Int → Option PgType
  curMap : Int → Option PgType

/-- The three map tiers a registration can target. -/
inductive Tier where
  | globalT
  | connT
  | curT
  deriving DecidableEq

/-- The `scope` argument of `register_type`: absent (falsy), a `Connection`,
a `Cursor`, or any other (truthy) object. -/
inductive Scope where
  | noScope
  | connection
  | cursor
  | other

/-- Write `t` under key `oid` into the chosen tier. -/
def RegState.set (st : RegState) (tier : Tier) (oid : Int) (t : PgType) : RegState :=
  match tier with
  | .globalT => { st with globalMap := fun o => if o = oid then some t else st.globalMap o }
  | .connT => { st with connMap := fun o => if o = oid then some t else st.connMap o }
  | .curT => { st with curMap := fun o => if o = oid then some t else st.curMap o }

/-- The target-map selection of `register_type`: `binary_types` when `scope`
is falsy, the scope's private `_typecasts` for a `Connection`/`Cursor`, and
Python `None` (no valid target) otherwise. -/
def scopeTarget : Scope → Option Tier
  | .noScope => some .globalT
  | .connection => some .connT
  | .cursor => some .curT
  | .other => Option.none

/-- `register_type(type_obj, scope)`: choose the target mapping, then assign
`typecasts[value] = type_obj` for every handled OID.  When the target is
`None` the first assignment raises `TypeError` (so an empty handled set is a
silent no-op). -/
def register_type (type_obj : PgType) (scope : Scope) (st : RegState) :
    Except Err RegState :=
  match scopeTarget scope with
  | Option.none => if type_obj.values.isEmpty then .ok st else .error .typeError
  | some tier => .ok (type_obj.values.foldl (fun s oid => s.set tier oid type_obj) st)

/-! ### Composite (`record`) decoder -/

/-- The `while len(data):` loop body of `parse_record`: read the
`(oid, olen)` group, slice out the field bytes, look the OID up in the
global `binary_types` mapping (a miss is the `UnknownTypeError` of the
spec), cast, and continue on the remainder. -/
def recordLoop (bt : Int → Option PgType) (data : List Nat) :
    Except Err (List PgVal) :=
  if hd : data.isEmpty then .ok []
  else
    match hu : unpackI32x2 data 0 with
    | .error e => .error e
    | .ok (oid, olen) =>
      let data1 := pyDrop data 8
      let val := pyTake data1 olen
      let data2 := pyDrop data1 olen
      match bt oid with
      | Option.none => .error .unknownType
      | some t =>
        match t.cast val olen with
        | .error e => .error e
        | .ok v =>
          match recordLoop bt data2 with
          | .error e => .error e
          | .ok vs => .ok (v :: vs)
termination_by data.length
decreasing_by
  have h8 : 8 ≤ data.length := by
    by_contra hlt
    push_neg at hlt
    have hlen : (pySlice data 0 (0 + 8)).length ≠ 8 := by
      simp only [pySlice, pyBound]
      simp only [List.length_take, List.length_drop]
      omega
    simp only [unpackI32x2] at hu
    rw [if_neg hlen] at hu
    exact Except.noConfusion hu
  have h1 : (pyDrop data 8).length = data.length - 8 := by
    simp only [pyDrop, pyBound, List.length_drop, Int.toNat_ofNat]
    rw [if_neg (by norm_num)]
    omega
  have h2 : (pyDrop (pyDrop data 8) olen).length ≤ (pyDrop data 8).length := by
    simp only [pyDrop, List.length_drop]
    omega
  omega

/-- `parse_record`: truncate to the declared length, read (and discard) the
int32 field count, then run the field loop and tuple the results. -/
def parse_record (bt : Int → Option PgType) (value : List Nat) (length : Int) :
    Except Err PgVal := do
  let data := pyTake value length
  let _nfields ← unpackExact 4 (pyTake data 4)
  let vs ← recordLoop bt (pyDrop data 4)
  .ok (.tuple vs)

/-! ### Binary array decoder (`parse_array`) -/

/-- The inner `for y in range(count)` loop of `parse_array`'s closure: read
an int32 length prefix at `doffset`, slice that many bytes, cast them with
the bound element type, and advance `doffset` past the element. -/
def arrElems (t : PgType) (value : List Nat) :
    Nat → Int → Except Err (List PgVal × Int)
  | 0, doffset => .ok ([], doffset)
  | n + 1, doffset => do
    let l ← unpackI32 value doffset
    let v ← t.cast (pySlice value (doffset + 4) (doffset + 4 + l)) l
    let (vs, dend) ← arrElems t value n (doffset + 4 + l)
    .ok (v :: vs, dend)

/-- The outer `for x in range(ndim)` loop: read an 8-byte dimension
descriptor at `offset` and collect `dim[1] + 1` elements of the shared flat
data run. -/
def arrDims (t : PgType) (value : List Nat) :
    Nat → Int → Int → Except Err (List (List PgVal))
  | 0, _, _ => .ok []
  | x + 1, offset, doffset => do
    let dim ← unpackI32x2 value offset
    let (vals, dend) ← arrElems t value (dim.2 + 1).toNat doffset
    let rest ← arrDims t value x (offset + 8) dend
    .ok (vals :: rest)

/-- `parse_array(obj)`'s `inner`: read the
`(ndim, flags, element-oid)` header from `value[:12]`, run the dimension
loop from byte offsets 12 (descriptors) and `12 + ndim*8` (data), and
return the sole dimension flat for `ndim == 1`, the nested list otherwise.
The declared length is never consulted. -/
def parse_array (t : PgType) (value : List Nat) (_length : Int) :
    Except Err PgVal := do
  let (ndim, _flags, _oid) ← unpackI32x3 value 0
  let data ← arrDims t value ndim.toNat 12 (12 + ndim * 8)
  if ndim = 1 then .ok (.arr (data.headD []))
  else .ok (.arr (data.map .arr))

/-! ### Text array literal parser (`_parse_array.__call__`)

The element caster receives either the accumulated item text with its
length, or Python `None` with length 0 for a NULL item. -/

/-- The inner item-accumulation `while` of `_parse_array.__call__`: returns
the accumulated buffer and the unconsumed remainder (beginning at the
delimiter that broke the scan, if any).  A double quote toggles the quote
count and is dropped, a backslash escapes the next character, and an
unquoted `}` or `,` ends the item. -/
def scanItem : List Char → Nat → Bool → List Char → List Char × List Char
  | [], _, _, buf => (buf, [])
  | c :: rest, quotes, esc, buf =>
    if esc then scanItem rest quotes false (buf ++ [c])
    else if c = '"' then scanItem rest (quotes + 1) false buf
    else if c = '\\' then scanItem rest quotes true buf
    else if quotes % 2 = 0 ∧ (c = '}' ∨ c = ',') then (buf, c :: rest)
    else scanItem rest quotes false (buf ++ [c])

/-- The item-finishing step of `_parse_array.__call__`: a buffer whose four
characters lowercase to `null` is cast as the NULL marker (`None` with
length 0); anything else is cast as its text with its length. -/
def castItem (caster : Option (List Char) → Int → PgVal) (buf : List Char) : PgVal :=
  if buf.length = 4 ∧ buf.map Char.toLower = ['n', 'u', 'l', 'l'] then
    caster Option.none 0
  else caster (some buf) (buf.length : Int)

/-- The outer scan of `_parse_array.__call__` over the body characters
(index 1 up to, excluding, the final `}`), with the explicit stack of open
array frames (head = innermost frame, as Python's `stack[-1]`).  `{` opens
a frame, `}` closes it into its parent, unquoted commas and spaces
separate, anything else starts an item.  At the end the innermost remaining
frame is returned (`return stack[-1]`); popping an empty stack is Python's
`IndexError`.  The fuel argument only bounds the recursion: every
iteration consumes at least one character, so `length + 1` fuel (as passed
below) can never run out. -/
def arrLoop (caster : Option (List Char) → Int → PgVal) :
    Nat → List Char → List (List PgVal) → Except Err (List PgVal)
  | _, [], stack =>
    match stack with
    | top :: _ => .ok top
    | [] => .error .indexError
  | 0, _ :: _, _ => .error .indexError
  | fuel + 1, c :: rest, stack =>
    if c = '{' then arrLoop caster fuel rest ([] :: stack)
    else if c = '}' then
      match stack with
      | t :: s :: ss => arrLoop caster fuel rest ((s ++ [.arr t]) :: ss)
      | _ => .error .indexError
    else if c = ',' ∨ c = ' ' then arrLoop caster fuel rest stack
    else
      let (buf, rest') := scanItem (c :: rest) 0 false []
      let v := castItem caster buf
      match stack with
      | top :: ss => arrLoop caster fuel rest' ((top ++ [v]) :: ss)
      | [] => .error .indexError

/-- `_parse_array.__call__(value, length, cursor)`: assert the `{` … `}`
framing (an empty literal is an `IndexError`, wrong framing an
`AssertionError`), then scan the characters strictly between index 1 and
the final index.  The declared length is never consulted. -/
def textArrayCall (caster : Option (List Char) → Int → PgVal) (value : List Char)
    (_length : Int) : Except Err (List PgVal) :=
  match value with
  | [] => .error .indexError
  | _ =>
    if value.head? = some '{' ∧ value.getLast? = some '}' then
      arrLoop caster (value.length + 1) (value.drop 1).dropLast [[]]
    else .error .assertionError

/-- Modelled from the spec: the "integer element decoder" of the text array
examples.  `src/` holds only binary-wire casters (its `parse_int` unpacks
fixed-width bytes and cannot read the decimal text items these examples
feed it), so the text-form integer decoder the spec presupposes is
modelled from the spec's words: it reads an optionally signed decimal
digit string, and decodes the NULL marker (`None`) to NULL. -/
def castTextInt : Option (List Char) → Int → PgVal
  | Option.none, _ => .none
  | some cs, _ =>
    let digitsVal := fun ds => ds.foldl (fun a c => a * 10 + ((c.toNat : Int) - 48)) (0 : Int)
    match cs with
    | '-' :: ds => .int (-(digitsVal ds))
    | ds => .int (digitsVal ds)

/-- Modelled from the spec: the "text decoder" of the text array examples —
the item text itself, with the NULL marker (`None`) decoding to NULL.
(`src/`'s own text caster, `parse_unicode`, only re-decodes bytes under the
connection encoding; character-set decoding is outside this model.) -/
def castTextStr : Option (List Char) → Int → PgVal
  | Option.none, _ => .none
  | some cs, _ => .str cs

/-! ### The registered base types used by the claims (`_default_type` calls) -/

/-- `BINARY = _default_type('BINARY', [17], parse_bytea)`. -/
def BINARY : PgType := { name := "BINARY", values := [17], caster := some parse_bytea }

/-- `BOOLEAN = _default_type('BOOLEAN', [16], parse_bool)`. -/
def BOOLEAN : PgType := { name := "BOOLEAN", values := [16], caster := some parse_bool }

/-- `INTEGER = _default_type('INTEGER', [20, 21, 23], parse_int)`. -/
def INTEGER : PgType := { name := "INTEGER", values := [20, 21, 23], caster := some parse_int }

/-- `DECIMAL = _default_type('DECIMAL', [1700], parse_numeric)`. -/
def DECIMAL : PgType := { name := "DECIMAL", values := [1700], caster := some parse_numeric }

/-! ### Well-formedness of a binary array payload's length prefixes

`arrElemsChk`/`arrDimsChk` retrace exactly the offsets `parse_array` visits
and check that every element length prefix it reads is at least −1 (the
NULL marker).  A prefix below −1 moves the data cursor backwards, which in
Python re-reads earlier bytes of the buffer — including the header. -/

/-- Retrace `arrElems`' length-prefix reads from `doffset`; `true` iff every
prefix read is ≥ −1, together with the final data offset. -/
def arrElemsChk (value : List Nat) : Nat → Int → Bool × Int
  | 0, doffset => (true, doffset)
  | n + 1, doffset =>
    match unpackI32 value doffset with
    | .error _ => (true, doffset)
    | .ok l =>
      let r := arrElemsChk value n (doffset + 4 + l)
      (decide (-1 ≤ l) && r.1, r.2)

/-- Retrace `arrDims`' traversal, checking every dimension's element run. -/
def arrDimsChk (value : List Nat) : Nat → Int → Int → Bool
  | 0, _, _ => true
  | x + 1, offset, doffset =>
    match unpackI32x2 value offset with
    | .error _ => true
    | .ok dim =>
      let r := arrElemsChk value (dim.2 + 1).toNat doffset
      r.1 && arrDimsChk value x (offset + 8) r.2

/-- A binary array payload is length-prefix well formed when every element
length prefix `parse_array` reads from it is −1 or nonnegative. -/
def arrayLensOK (value : List Nat) : Bool :=
  match unpackI32x3 value 0 with
  | .error _ => true
  | .ok (ndim, _, _) => arrDimsChk value ndim.toNat 12 (12 + ndim * 8)

/-! ### Wire-format encoders (for stating round-trip properties) -/

/-- One composite field group: int32 OID, int32 byte length, payload. -/
def encodeField (oid : Int) (payload : List Nat) : List Nat :=
  encodeIntBE 4 oid ++ encodeIntBE 4 (payload.length : Int) ++ payload

/-- A composite (`record`) wire payload: int32 field count then the field
groups. -/
def encodeRecord (fields : List (Int × List Nat)) : List Nat :=
  encodeIntBE 4 (fields.length : Int) ++ (fields.map fun f => encodeField f.1 f.2).join

/-! ### Concrete payloads referred to by individual claims -/

/-- Binary int4 array payload: `ndim = 1`, flags 0, element OID 23, one
dimension descriptor declaring size 3 with lower bound 1, then three
length-prefixed 4-byte integers 1, 2, 3. -/
def arraySize3Payload : List Nat :=
  [0, 0, 0, 1, 0, 0, 0, 0, 0, 0, 0, 23, 0, 0, 0, 3, 0, 0, 0, 1,
   0, 0, 0, 4, 0, 0, 0, 1, 0, 0, 0, 4, 0, 0, 0, 2, 0, 0, 0, 4, 0, 0, 0, 3]

/-- Binary array payload with `ndim = 0` (header only). -/
def arrayNdim0Payload : List Nat := [0, 0, 0, 0, 0, 0, 0, 0, 0, 0, 0, 23]

/-- A 24-byte binary array payload whose first element carries the length
prefix −16, sending the data cursor back to byte offset 8 — the element-OID
header field.  Bytes 8–11 are zero here. -/
def arrayBackrefPayload0 : List Nat :=
  [0, 0, 0, 1, 0, 0, 0, 0, 0, 0, 0, 0, 0, 0, 0, 0, 0, 0, 0, 1,
   255, 255, 255, 240]

/-- The same payload with the element-OID header field set to 4 instead of
0; all other bytes agree with `arrayBackrefPayload0`. -/
def arrayBackrefPayload4 : List Nat :=
  [0, 0, 0, 1, 0, 0, 0, 0, 0, 0, 0, 4, 0, 0, 0, 0, 0, 0, 0, 1,
   255, 255, 255, 240]

/-- Well-formed binary int4 array `[1, 2]` (`ndim = 1`, dimension descriptor
`(2, 1)`), with flags 0 and element OID 23. -/
def arrayPairPayloadA : List Nat :=
  [0, 0, 0, 1, 0, 0, 0, 0, 0, 0, 0, 23, 0, 0, 0, 2, 0, 0, 0, 1,
   0, 0, 0, 4, 0, 0, 0, 1, 0, 0, 0, 4, 0, 0, 0, 2]

/-- The same array with both ignored header fields changed (flags 1,
element OID 99). -/
def arrayPairPayloadB : List Nat :=
  [0, 0, 0, 1, 0, 0, 0, 1, 0, 0, 0, 99, 0, 0, 0, 2, 0, 0, 0, 1,
   0, 0, 0, 4, 0, 0, 0, 1, 0, 0, 0, 4, 0, 0, 0, 2]

/-! ## Theorems

### Basic facts about Python slicing and the fixed-width integer codec -/

theorem pyTake_natCast (l : List α) (n : Nat) : pyTake l (n : Int) = l.take n := by
  simp only [pyTake, pySlice, pyBound]
  rw [if_neg (by omega), if_neg (by omega)]
  simp only [Int.toNat_natCast, Int.toNat_zero, Nat.zero_min, List.drop_zero, Nat.sub_zero]
  rcases le_total n l.length with h | h
  · rw [min_eq_left h]
  · rw [min_eq_right h, List.take_length, List.take_of_length_le h]

theorem pyDrop_natCast (l : List α) (n : Nat) : pyDrop l (n : Int) = l.drop n := by
  simp only [pyDrop, pyBound]
  rw [if_neg (by omega)]
  simp only [Int.toNat_natCast]
  rcases le_total n l.length with h | h
  · rw [min_eq_left h]
  · rw [min_eq_right h, List.drop_length, List.drop_eq_nil_of_le h]

theorem natToBytesBE_length (w n : Nat) : (natToBytesBE w n).length = w := by
  induction w generalizing n with
  | zero => rfl
  | succ w ih => simp [natToBytesBE, ih]

theorem bytesToNat_append (xs : List Nat) (b : Nat) :
    bytesToNat (xs ++ [b]) = bytesToNat xs * 256 + b := by
  simp [bytesToNat, List.foldl_append]

theorem mod_mul_split (n K : Nat) (hK : 0 < K) :
    n / 256 % K * 256 + n % 256 = n % (K * 256) := by
  have hsplit : n = K * 256 * (n / 256 / K) + (n / 256 % K * 256 + n % 256) := by
    have h1 : 256 * (n / 256) + n % 256 = n := Nat.div_add_mod n 256
    have h2 : K * (n / 256 / K) + n / 256 % K = n / 256 := Nat.div_add_mod (n / 256) K
    calc n = 256 * (n / 256) + n % 256 := h1.symm
      _ = 256 * (K * (n / 256 / K) + n / 256 % K) + n % 256 := by rw [h2]
      _ = K * 256 * (n / 256 / K) + (n / 256 % K * 256 + n % 256) := by ring
  have hlt : n / 256 % K * 256 + n % 256 < K * 256 := by
    have hr : n / 256 % K < K := Nat.mod_lt _ hK
    have hm : n % 256 < 256 := Nat.mod_lt _ (by norm_num)
    have := Nat.mul_le_mul_right 256 (Nat.succ_le_of_lt hr)
    omega
  calc n / 256 % K * 256 + n % 256
      = (n / 256 % K * 256 + n % 256) % (K * 256) := (Nat.mod_eq_of_lt hlt).symm
    _ = (n / 256 % K * 256 + n % 256 + K * 256 * (n / 256 / K)) % (K * 256) := by
        rw [Nat.add_mul_mod_self_left]
    _ = n % (K * 256) := by rw [Nat.add_comm, ← hsplit]

theorem bytesToNat_natToBytesBE (w n : Nat) :
    bytesToNat (natToBytesBE w n) = n % 2 ^ (8 * w) := by
  induction w generalizing n with
  | zero => simp [natToBytesBE, bytesToNat, Nat.mod_one]
  | succ w ih =>
    have hpow : (2 : Nat) ^ (8 * (w + 1)) = 2 ^ (8 * w) * 256 := by
      rw [Nat.mul_succ, pow_add]
      norm_num
    rw [natToBytesBE, bytesToNat_append, ih, hpow,
      mod_mul_split n (2 ^ (8 * w)) (Nat.pos_pow_of_pos _ (by norm_num))]

theorem encodeIntBE_length (w : Nat) (v : Int) : (encodeIntBE w v).length = w :=
  natToBytesBE_length _ _

theorem toSigned_encodeIntBE (w : Nat) (hw : 0 < w) (v : Int)
    (h1 : -(2 ^ (8 * w - 1)) ≤ v) (h2 : v < 2 ^ (8 * w - 1)) :
    toSigned w (bytesToNat (encodeIntBE w v)) = v := by
  have hM2 : (2 : Int) ^ (8 * w) = 2 ^ (8 * w - 1) * 2 := by
    rw [← pow_succ]
    congr 1
    omega
  have hMpos : (0 : Int) < 2 ^ (8 * w) := pow_pos (by norm_num) _
  have he0 : 0 ≤ v.emod (2 ^ (8 * w)) := Int.emod_nonneg v (by omega)
  have hcase : v.emod (2 ^ (8 * w)) = v ∨ v.emod (2 ^ (8 * w)) = v + 2 ^ (8 * w) := by
    rcases le_or_lt 0 v with hv | hv
    · left
      exact Int.emod_eq_of_lt hv (by omega)
    · right
      have heq : (v + 2 ^ (8 * w) * 1).emod (2 ^ (8 * w)) = v.emod (2 ^ (8 * w)) :=
        Int.add_mul_emod_self_left v (2 ^ (8 * w)) 1
      rw [← heq, mul_one]
      exact Int.emod_eq_of_lt (by omega) (by omega)
  have hmodpow : ((2 : Nat) ^ (8 * w) : Int) = (2 : Int) ^ (8 * w) := by push_cast; ring
  have hbytes : bytesToNat (encodeIntBE w v) = (v.emod (2 ^ (8 * w))).toNat := by
    rw [encodeIntBE, bytesToNat_natToBytesBE, Nat.mod_eq_of_lt]
    have : v.emod (2 ^ (8 * w)) < 2 ^ (8 * w) := Int.emod_lt_of_pos v hMpos
    omega
  rw [hbytes, toSigned]
  have hcast : (((v.emod (2 ^ (8 * w))).toNat : Int)) = v.emod (2 ^ (8 * w)) :=
    Int.toNat_of_nonneg he0
  have hHcast : (((2 : Nat) ^ (8 * w - 1) : Nat) : Int) = (2 : Int) ^ (8 * w - 1) := by
    push_cast
    ring
  rcases hcase with he | he
  · rw [if_pos (by omega)]
    omega
  · rw [if_neg (by omega)]
    omega

theorem unpackExact_encodeIntBE (w : Nat) (hw : 0 < w) (v : Int)
    (h1 : -(2 ^ (8 * w - 1)) ≤ v) (h2 : v < 2 ^ (8 * w - 1)) :
    unpackExact w (encodeIntBE w v) = .ok v := by
  rw [unpackExact, if_pos (encodeIntBE_length w v), toSigned_encodeIntBE w hw v h1 h2]

/-! ### C1 — NULL handling at declared length −1 -/

/-- C1, counterexample.  The claim says every primitive decoder returns NULL
at declared length −1 without reading payload bytes; `parse_bool` has no
length check at all — on payload byte `0x01` with length −1 it reads the
byte and returns `True`, not NULL. -/
theorem parse_bool_null_length_cex :
    parse_bool [1] (-1) = .ok (.bool true) ∧ parse_bool [1] (-1) ≠ .ok .none := by
  refine ⟨rfl, ?_⟩
  intro h
  simp only [parse_bool] at h
  exact PgVal.noConfusion (Except.ok.inj h)

/-- C1, amended.  The integer, float and numeric decoders return NULL at
declared length −1 regardless of the supplied bytes; but the boolean
decoder ignores the declared length entirely and decodes the first payload
byte, and the date decoder reads payload bytes even at length −1 (Python
`value[:-1]` drops the final byte, so a 5-byte payload whose first four
bytes encode 1 decodes to 2000-01-02). -/
theorem null_length_decoders :
    (∀ value : List Nat, parse_int value (-1) = .ok .none)
  ∧ (∀ value : List Nat, parse_float value (-1) = .ok .none)
  ∧ (∀ value : List Nat, parse_numeric value (-1) = .ok .none)
  ∧ (∀ (b : Nat) (rest : List Nat) (length : Int),
       parse_bool (b :: rest) length = .ok (.bool (b == 1)))
  ∧ parse_date [0, 0, 0, 1, 9] (-1) = .ok (.date 2000 1 2) := by
  exact ⟨fun _ => rfl, fun _ => rfl, fun _ => rfl, fun _ _ _ => rfl, rfl⟩

/-! ### C2 — binary array dimension element count -/

/-- C2.  Evaluating `parse_array` with the `INTEGER` element type on the
payload whose single dimension descriptor declares size 3 (lower bound 1)
followed by the three length-prefixed integers 1, 2, 3: the code takes its
repeat count from `dim[1] + 1` — the *lower bound* field plus one, not the
size field — so it reads only two elements and yields `[1, 2]`, not the
claimed `[1, 2, 3]`.  (The `ndim = 0` half of the claim does hold: the
header-only payload yields the empty sequence.) -/
theorem parse_array_dimension_count_eval :
    parse_array INTEGER arraySize3Payload 44 = .ok (.arr [.int 1, .int 2])
  ∧ parse_array INTEGER arrayNdim0Payload 12 = .ok (.arr []) :=
  ⟨rfl, rfl⟩

/-! ### C5 — text array literal parsing -/

/-- C5.  The text array parser, with the (spec-modelled) text-form integer
element decoder, parses `\x7b1,2,3\x7d` to `[1, 2, 3]`; with the text
decoder it parses the literal containing `"a,b"` and `"c"` to the
two items `a,b` and `c` (the quoted comma is not a separator, the quotes
are stripped); an escaped comma behaves the same way; and `\x7bNULL,1\x7d`
with the integer decoder yields `[None, 1]`, the NULL item reaching the
decoder as the zero-length null marker. -/
theorem text_array_parser_examples :
    textArrayCall castTextInt "\x7b1,2,3\x7d".data 7 = .ok [.int 1, .int 2, .int 3]
  ∧ textArrayCall castTextStr "\x7b\"a,b\",\"c\"\x7d".data 11 =
      .ok [.str ['a', ',', 'b'], .str ['c']]
  ∧ textArrayCall castTextStr "\x7ba\\,b,c\x7d".data 8 =
      .ok [.str ['a', ',', 'b'], .str ['c']]
  ∧ textArrayCall castTextInt "\x7bNULL,1\x7d".data 8 = .ok [.none, .int 1] :=
  ⟨rfl, rfl, rfl, rfl⟩

/-! ### C7 — timestamp epoch and timestamptz equality -/

set_option maxRecDepth 8192 in
/-- C7.  In mode A (`integer_datetimes = True`, the module's effective
value), the timestamp decoder reads the 8-byte payload as a big-endian
int64 microsecond count since 2000-01-01: value 0 decodes to
2000-01-01T00:00:00 and value 1 to 2000-01-01T00:00:00.000001; and for
every payload and length, `parse_timestamptz` returns exactly
`parse_timestamp`'s (timezone-naive) value. -/
theorem parse_timestamp_epoch_and_tz :
    parse_timestamp (encodeIntBE 8 0) 8 = .ok (.datetime 2000 1 1 0 0 0 0)
  ∧ parse_timestamp (encodeIntBE 8 1) 8 = .ok (.datetime 2000 1 1 0 0 0 1)
  ∧ ∀ (value : List Nat) (length : Int),
      parse_timestamptz value length = parse_timestamp value length :=
  ⟨rfl, rfl, fun _ _ => rfl⟩

/-! ### C10 — NULL decision happens after quote stripping -/

/-- C10.  The item-finishing step of the text array parser decides NULL on
the accumulated buffer — after quotes were stripped and escapes processed:
any buffer whose characters lowercase to `null` is cast as the NULL
marker, for every element decoder; consequently the literals containing
the quoted items `"null"` and `"NULL"` both decode their item to NULL
rather than to the four-character string. -/
theorem text_array_null_decided_after_unquoting :
    (∀ (caster : Option (List Char) → Int → PgVal) (buf : List Char),
       buf.map Char.toLower = ['n', 'u', 'l', 'l'] →
       castItem caster buf = caster Option.none 0)
  ∧ textArrayCall castTextStr "\x7b\"null\"\x7d".data 8 = .ok [.none]
  ∧ textArrayCall castTextStr "\x7b\"NULL\"\x7d".data 8 = .ok [.none] := by
  refine ⟨?_, rfl, rfl⟩
  intro caster buf h
  have hlen : buf.length = 4 := by
    have hl := congrArg List.length h
    simpa using hl
  rw [castItem, if_pos ⟨hlen, h⟩]

/-- C10, witness: the general NULL rule applied to the concrete quoted item
`NULL` with the text decoder. -/
theorem text_array_null_decided_after_unquoting_witness :
    castItem castTextStr ['N', 'U', 'L', 'L'] = castTextStr Option.none 0 :=
  text_array_null_decided_after_unquoting.1 castTextStr ['N', 'U', 'L', 'L'] (by decide)

/-! ### C9 — header-field (in)dependence of the binary array decoder -/

/-- C9, counterexample.  Two 24-byte array payloads identical except in the
element-OID header field (bytes 8–11; the flags field, bytes 4–7, is 0 in
both) decode differently with the same bound element type: the first
element's length prefix −16 moves the data cursor back to byte offset 8,
so the second element's length prefix is read out of the element-OID
header field itself, and the two payloads yield `[b'', b'']` versus
`[b'', b'\x00\x00\x00\x00']`. -/
theorem parse_array_header_dependence_cex :
    arrayBackrefPayload0.length = arrayBackrefPayload4.length
  ∧ (∀ i : Nat, i < arrayBackrefPayload0.length → i < 8 ∨ 12 ≤ i →
      arrayBackrefPayload0.get? i = arrayBackrefPayload4.get? i)
  ∧ parse_array BINARY arrayBackrefPayload0 24 ≠
      parse_array BINARY arrayBackrefPayload4 24 := by
  refine ⟨rfl, by decide, ?_⟩
  have h0 : parse_array BINARY arrayBackrefPayload0 24 =
      .ok (.arr [.bytes [], .bytes []]) := rfl
  have h4 : parse_array BINARY arrayBackrefPayload4 24 =
      .ok (.arr [.bytes [], .bytes [0, 0, 0, 0]]) := rfl
  rw [h0, h4]
  intro h
  simp at h

/-! ### C6 — fixed-width integer round-trip and length validation -/

/-- C6.  For each width in \{2, 4, 8\} and every integer representable as a
big-endian two's-complement value of that width, decoding the width-byte
encoding with the matching declared length returns the integer; and every
declared length other than 2, 4, 8 and −1 raises the decoder's length
`ValueError`. -/
theorem parse_int_roundtrip_and_length :
    (∀ v : Int, -(2 ^ 15) ≤ v → v < 2 ^ 15 →
       parse_int (encodeIntBE 2 v) 2 = .ok (.int v))
  ∧ (∀ v : Int, -(2 ^ 31) ≤ v → v < 2 ^ 31 →
       parse_int (encodeIntBE 4 v) 4 = .ok (.int v))
  ∧ (∀ v : Int, -(2 ^ 63) ≤ v → v < 2 ^ 63 →
       parse_int (encodeIntBE 8 v) 8 = .ok (.int v))
  ∧ (∀ (value : List Nat) (length : Int),
       length ≠ -1 → length ≠ 2 → length ≠ 4 → length ≠ 8 →
       parse_int value length = .error .valueError) := by
  have htake : ∀ (w : Nat) (v : Int),
      pyTake (encodeIntBE w v) ((w : Nat) : Int) = encodeIntBE w v := by
    intro w v
    rw [pyTake_natCast]
    exact List.take_of_length_le (by simp [encodeIntBE_length])
  refine ⟨fun v h1 h2 => ?_, fun v h1 h2 => ?_, fun v h1 h2 => ?_, ?_⟩
  · have hpy : pyTake (encodeIntBE 2 v) (2 : Int) = encodeIntBE 2 v := by
      have h := htake 2 v
      norm_num at h
      exact h
    rw [parse_int, if_neg (by norm_num), if_pos rfl, hpy,
      unpackExact_encodeIntBE 2 (by norm_num) v (by exact_mod_cast h1) (by exact_mod_cast h2)]
    rfl
  · have hpy : pyTake (encodeIntBE 4 v) (4 : Int) = encodeIntBE 4 v := by
      have h := htake 4 v
      norm_num at h
      exact h
    rw [parse_int, if_neg (by norm_num), if_neg (by norm_num), if_pos rfl, hpy,
      unpackExact_encodeIntBE 4 (by norm_num) v (by exact_mod_cast h1) (by exact_mod_cast h2)]
    rfl
  · have hpy : pyTake (encodeIntBE 8 v) (8 : Int) = encodeIntBE 8 v := by
      have h := htake 8 v
      norm_num at h
      exact h
    rw [parse_int, if_neg (by norm_num), if_neg (by norm_num), if_neg (by norm_num),
      if_pos rfl, hpy,
      unpackExact_encodeIntBE 8 (by norm_num) v (by exact_mod_cast h1) (by exact_mod_cast h2)]
    rfl
  · intro value length hm1 h2 h4 h8
    rw [parse_int, if_neg hm1, if_neg h2, if_neg h4, if_neg h8]

/-- C6, witness: a 4-byte round trip of −5 and the length error at declared
length 3. -/
theorem parse_int_roundtrip_and_length_witness :
    parse_int (encodeIntBE 4 (-5)) 4 = .ok (.int (-5))
  ∧ parse_int [] 3 = .error .valueError :=
  ⟨parse_int_roundtrip_and_length.2.1 (-5) (by norm_num) (by norm_num),
   parse_int_roundtrip_and_length.2.2.2 [] 3 (by norm_num) (by norm_num) (by norm_num)
     (by norm_num)⟩

/-! ### C3 — exact numeric decoding -/

theorem pySlice_natCast (v : List α) (a b : Nat) :
    pySlice v (a : Int) (b : Int) = (v.drop a).take (b - a) := by
  simp only [pySlice, pyBound]
  rw [if_neg (by omega), if_neg (by omega)]
  simp only [Int.toNat_natCast]
  rcases le_total a v.length with ha | ha
  · rw [min_eq_left ha]
    rcases le_total b v.length with hb | hb
    · rw [min_eq_left hb]
    · rw [min_eq_right hb]
      rw [List.take_of_length_le (by simp), List.take_of_length_le (by simp; omega)]
  · rw [min_eq_right ha, List.drop_length, List.drop_eq_nil_of_le ha]
    simp

theorem regFold_global (t : PgType) (vs : List Int) (st : RegState) (oid : Int) :
    (vs.foldl (fun s o => s.set Tier.globalT o t) st).globalMap oid =
      (if oid ∈ vs then some t else st.globalMap oid)
  ∧ (vs.foldl (fun s o => s.set Tier.globalT o t) st).connMap oid = st.connMap oid
  ∧ (vs.foldl (fun s o => s.set Tier.globalT o t) st).curMap oid = st.curMap oid := by
  induction vs generalizing st with
  | nil => simp
  | cons v vs ih =>
    obtain ⟨h1, h2, h3⟩ := ih (RegState.set st .globalT v t)
    simp only [List.foldl_cons]
    refine ⟨?_, by rw [h2]; rfl, by rw [h3]; rfl⟩
    rw [h1]
    by_cases hm : oid ∈ vs
    · simp [hm, RegState.set]
    · by_cases hv : oid = v
      · simp [hm, hv, RegState.set]
      · simp [hm, hv, RegState.set]

theorem regFold_conn (t : PgType) (vs : List Int) (st : RegState) (oid : Int) :
    (vs.foldl (fun s o => s.set Tier.connT o t) st).connMap oid =
      (if oid ∈ vs then some t else st.connMap oid)
  ∧ (vs.foldl (fun s o => s.set Tier.connT o t) st).globalMap oid = st.globalMap oid
  ∧ (vs.foldl (fun s o => s.set Tier.connT o t) st).curMap oid = st.curMap oid := by
  induction vs generalizing st with
  | nil => simp
  | cons v vs ih =>
    obtain ⟨h1, h2, h3⟩ := ih (RegState.set st .connT v t)
    simp only [List.foldl_cons]
    refine ⟨?_, by rw [h2]; rfl, by rw [h3]; rfl⟩
    rw [h1]
    by_cases hm : oid ∈ vs
    · simp [hm, RegState.set]
    · by_cases hv : oid = v
      · simp [hm, hv, RegState.set]
      · simp [hm, hv, RegState.set]

theorem regFold_cur (t : PgType) (vs : List Int) (st : RegState) (oid : Int) :
    (vs.foldl (fun s o => s.set Tier.curT o t) st).curMap oid =
      (if oid ∈ vs then some t else st.curMap oid)
  ∧ (vs.foldl (fun s o => s.set Tier.curT o t) st).globalMap oid = st.globalMap oid
  ∧ (vs.foldl (fun s o => s.set Tier.curT o t) st).connMap oid = st.connMap oid := by
  induction vs generalizing st with
  | nil => simp
  | cons v vs ih =>
    obtain ⟨h1, h2, h3⟩ := ih (RegState.set st .curT v t)
    simp only [List.foldl_cons]
    refine ⟨?_, by rw [h2]; rfl, by rw [h3]; rfl⟩
    rw [h1]
    by_cases hm : oid ∈ vs
    · simp [hm, RegState.set]
    · by_cases hv : oid = v
      · simp [hm, hv, RegState.set]
      · simp [hm, hv, RegState.set]

/-- C8, amended.  `register_type` installs the decoder under every OID in
its handled set into exactly one mapping — the connection's or cursor's
private mapping when the scope is a connection or cursor, the global
mapping when no scope is given — leaving the other two mappings unchanged
at every OID; a later registration for the same OID in the same scope
overwrites the earlier one; but a *truthy scope of any other kind* does not
fall back to the global mapping: the target mapping is Python `None` and
the first assignment raises `TypeError` (nothing is installed anywhere). -/
theorem register_type_scope_effects (t : PgType) (st : RegState) (oid : Int) :
    ((oid ∈ t.values →
        (register_type t .noScope st).map (fun r => r.globalMap oid) = .ok (some t))
   ∧ (oid ∉ t.values →
        (register_type t .noScope st).map (fun r => r.globalMap oid) = .ok (st.globalMap oid))
   ∧ (register_type t .noScope st).map (fun r => r.connMap oid) = .ok (st.connMap oid)
   ∧ (register_type t .noScope st).map (fun r => r.curMap oid) = .ok (st.curMap oid))
  ∧ ((oid ∈ t.values →
        (register_type t .connection st).map (fun r => r.connMap oid) = .ok (some t))
   ∧ (oid ∉ t.values →
        (register_type t .connection st).map (fun r => r.connMap oid) = .ok (st.connMap oid))
   ∧ (register_type t .connection st).map (fun r => r.globalMap oid) = .ok (st.globalMap oid)
   ∧ (register_type t .connection st).map (fun r => r.curMap oid) = .ok (st.curMap oid))
  ∧ ((oid ∈ t.values →
        (register_type t .cursor st).map (fun r => r.curMap oid) = .ok (some t))
   ∧ (oid ∉ t.values →
        (register_type t .cursor st).map (fun r => r.curMap oid) = .ok (st.curMap oid))
   ∧ (register_type t .cursor st).map (fun r => r.globalMap oid) = .ok (st.globalMap oid)
   ∧ (register_type t .cursor st).map (fun r => r.connMap oid) = .ok (st.connMap oid))
  ∧ (t.values ≠ [] → register_type t .other st = .error .typeError)
  ∧ (∀ t1 : PgType, oid ∈ t.values →
      ((register_type t1 .noScope st).bind (register_type t .noScope)).map
        (fun r => r.globalMap oid) = .ok (some t)) := by
  have hg := regFold_global t t.values st oid
  have hc := regFold_conn t t.values st oid
  have hu := regFold_cur t t.values st oid
  refine ⟨⟨fun hm => ?_, fun hm => ?_, ?_, ?_⟩, ⟨fun hm => ?_, fun hm => ?_, ?_, ?_⟩,
    ⟨fun hm => ?_, fun hm => ?_, ?_, ?_⟩, fun hne => ?_, fun t1 hm => ?_⟩
  · rw [show register_type t .noScope st =
      .ok (t.values.foldl (fun s o => s.set Tier.globalT o t) st) from rfl]
    simp only [Except.map]
    rw [hg.1, if_pos hm]
  · rw [show register_type t .noScope st =
      .ok (t.values.foldl (fun s o => s.set Tier.globalT o t) st) from rfl]
    simp only [Except.map]
    rw [hg.1, if_neg hm]
  · rw [show register_type t .noScope st =
      .ok (t.values.foldl (fun s o => s.set Tier.globalT o t) st) from rfl]
    simp only [Except.map]
    rw [hg.2.1]
  · rw [show register_type t .noScope st =
      .ok (t.values.foldl (fun s o => s.set Tier.globalT o t) st) from rfl]
    simp only [Except.map]
    rw [hg.2.2]
  · rw [show register_type t .connection st =
      .ok (t.values.foldl (fun s o => s.set Tier.connT o t) st) from rfl]
    simp only [Except.map]
    rw [hc.1, if_pos hm]
  · rw [show register_type t .connection st =
      .ok (t.values.foldl (fun s o => s.set Tier.connT o t) st) from rfl]
    simp only [Except.map]
    rw [hc.1, if_neg hm]
  · rw [show register_type t .connection st =
      .ok (t.values.foldl (fun s o => s.set Tier.connT o t) st) from rfl]
    simp only [Except.map]
    rw [hc.2.1]
  · rw [show register_type t .connection st =
      .ok (t.values.foldl (fun s o => s.set Tier.connT o t) st) from rfl]
    simp only [Except.map]
    rw [hc.2.2]
  · rw [show register_type t .cursor st =
      .ok (t.values.foldl (fun s o => s.set Tier.curT o t) st) from rfl]
    simp only [Except.map]
    rw [hu.1, if_pos hm]
  · rw [show register_type t .cursor st =
      .ok (t.values.foldl (fun s o => s.set Tier.curT o t) st) from rfl]
    simp only [Except.map]
    rw [hu.1, if_neg hm]
  · rw [show register_type t .cursor st =
      .ok (t.values.foldl (fun s o => s.set Tier.curT o t) st) from rfl]
    simp only [Except.map]
    rw [hu.2.1]
  · rw [show register_type t .cursor st =
      .ok (t.values.foldl (fun s o => s.set Tier.curT o t) st) from rfl]
    simp only [Except.map]
    rw [hu.2.2]
  · rw [register_type]
    simp only [scopeTarget]
    rw [if_neg (by simpa [List.isEmpty_iff] using hne)]
  · rw [show register_type t1 .noScope st =
      .ok (t1.values.foldl (fun s o => s.set Tier.globalT o t1) st) from rfl]
    simp only [Except.bind]
    rw [show register_type t .noScope (t1.values.foldl (fun s o => s.set Tier.globalT o t1) st) =
        .ok (t.values.foldl (fun s o => s.set Tier.globalT o t)
          (t1.values.foldl (fun s o => s.set Tier.globalT o t1) st)) from rfl]
    simp only [Except.map]
    rw [(regFold_global t t.values _ oid).1, if_pos hm]

/-- C8, witness: registering `BOOLEAN` at connection scope in the empty
state installs it under OID 16 in the connection mapping, and registering
it with an unrecognized scope raises the `TypeError`. -/
theorem register_type_scope_effects_witness :
    (register_type BOOLEAN .connection
        ⟨fun _ => Option.none, fun _ => Option.none, fun _ => Option.none⟩).map
      (fun r => r.connMap 16) = .ok (some BOOLEAN)
  ∧ register_type BOOLEAN .other
      ⟨fun _ => Option.none, fun _ => Option.none, fun _ => Option.none⟩ =
      .error .typeError :=
  ⟨(register_type_scope_effects BOOLEAN
      ⟨fun _ => Option.none, fun _ => Option.none, fun _ => Option.none⟩ 16).2.1.1
      (by simp [BOOLEAN]),
   (register_type_scope_effects BOOLEAN
      ⟨fun _ => Option.none, fun _ => Option.none, fun _ => Option.none⟩ 16).2.2.2.1
      (by simp [BOOLEAN])⟩

/-! ### C4 — composite (`record`) decoding -/

theorem unpackI32x2_encode (a b : Int) (rest : List Nat)
    (ha1 : -(2 ^ 31) ≤ a) (ha2 : a < 2 ^ 31) (hb1 : -(2 ^ 31) ≤ b) (hb2 : b < 2 ^ 31) :
    unpackI32x2 (encodeIntBE 4 a ++ encodeIntBE 4 b ++ rest) 0 = .ok (a, b) := by
  have la := encodeIntBE_length 4 a
  have lb := encodeIntBE_length 4 b
  have hsl : pySlice (encodeIntBE 4 a ++ encodeIntBE 4 b ++ rest) 0 (0 + 8) =
      encodeIntBE 4 a ++ encodeIntBE 4 b := by
    rw [show ((0 : Int) + 8) = ((8 : Nat) : Int) from rfl,
      show (0 : Int) = ((0 : Nat) : Int) from rfl, pySlice_natCast]
    simp only [List.drop_zero, Nat.sub_zero]
    exact List.take_left' (by simp [la, lb])
  rw [unpackI32x2, hsl, if_pos (by simp [la, lb]), List.take_left' la, List.drop_left' la,
    toSigned_encodeIntBE 4 (by norm_num) a (by exact_mod_cast ha1) (by exact_mod_cast ha2),
    toSigned_encodeIntBE 4 (by norm_num) b (by exact_mod_cast hb1) (by exact_mod_cast hb2)]

theorem encodeField_length (a : Int) (pl : List Nat) :
    (encodeField a pl).length = 8 + pl.length := by
  rw [encodeField, List.length_append, List.length_append, encodeIntBE_length,
    encodeIntBE_length]

/-- One iteration of the `parse_record` field loop on a well-formed encoded
field group. -/
theorem recordLoop_step (bt : Int → Option PgType) (a : Int) (pl rest : List Nat)
    (ha1 : -(2 ^ 31) ≤ a) (ha2 : a < 2 ^ 31) (hlen : (pl.length : Int) < 2 ^ 31) :
    recordLoop bt (encodeField a pl ++ rest) =
      (match bt a with
       | Option.none => .error .unknownType
       | some t =>
         match t.cast pl (pl.length : Int) with
         | .error e => .error e
         | .ok v =>
           match recordLoop bt rest with
           | .error e => .error e
           | .ok vs => .ok (v :: vs)) := by
  have hshape : encodeField a pl ++ rest =
      encodeIntBE 4 a ++ encodeIntBE 4 (pl.length : Int) ++ (pl ++ rest) := by
    simp [encodeField, List.append_assoc]
  have hne : ¬((encodeField a pl ++ rest).isEmpty = true) := by
    rw [List.isEmpty_iff]
    intro h
    have := congrArg List.length h
    rw [List.length_append, encodeField_length] at this
    simp at this
  have hunp : unpackI32x2 (encodeField a pl ++ rest) 0 = .ok (a, (pl.length : Int)) := by
    rw [hshape]
    exact unpackI32x2_encode a _ _ ha1 ha2 (by omega) hlen
  have hdrop8 : pyDrop (encodeField a pl ++ rest) 8 = pl ++ rest := by
    rw [show (8 : Int) = ((8 : Nat) : Int) from rfl, pyDrop_natCast, hshape]
    exact List.drop_left' (by simp [encodeIntBE_length])
  have htakepl : pyTake (pl ++ rest) (pl.length : Int) = pl := by
    rw [pyTake_natCast]
    exact List.take_left pl rest
  have hdroppl : pyDrop (pl ++ rest) (pl.length : Int) = rest := by
    rw [pyDrop_natCast]
    exact List.drop_left pl rest
  rw [recordLoop]
  rw [dif_neg hne]
  split
  · next heq =>
    rw [hunp] at heq
    exact Except.noConfusion heq
  · next oid olen heq =>
    rw [hunp] at heq
    obtain ⟨h1, h2⟩ := Prod.mk.injEq .. ▸ (Except.ok.inj heq)
    subst h1
    subst h2
    simp only [hdrop8, htakepl, hdroppl]

/-- The field loop decodes an encoded field list to the corresponding value
list when every field OID resolves and its cast succeeds. -/
theorem recordLoop_fields (bt : Int → Option PgType) (fields : List (Int × List Nat))
    (vs : List PgVal)
    (h : List.Forall₂ (fun f v => -(2 ^ 31) ≤ f.1 ∧ f.1 < 2 ^ 31 ∧
      ((f.2.length : Int) < 2 ^ 31) ∧
      ∃ t, bt f.1 = some t ∧ t.cast f.2 (f.2.length : Int) = .ok v) fields vs) :
    recordLoop bt ((fields.map fun f => encodeField f.1 f.2).join) = .ok vs := by
  induction h with
  | nil =>
    rw [recordLoop]
    rfl
  | @cons f v fs vsr hf hrest ih =>
    obtain ⟨hb1, hb2, hb3, t, hbt, hcast⟩ := hf
    show recordLoop bt (encodeField f.1 f.2 ++ (fs.map fun f => encodeField f.1 f.2).join) =
      .ok (v :: vsr)
    rw [recordLoop_step bt f.1 f.2 _ hb1 hb2 hb3, hbt]
    simp only
    rw [hcast]
    simp only
    rw [ih]

/-- The field loop aborts with the unknown-type error at the first field
whose OID resolves in no scope, decoding no partial result. -/
theorem recordLoop_fields_err (bt : Int → Option PgType) (pre : List (Int × List Nat))
    (vsPre : List PgVal) (bad : Int × List Nat) (rest : List (Int × List Nat))
    (h : List.Forall₂ (fun f v => -(2 ^ 31) ≤ f.1 ∧ f.1 < 2 ^ 31 ∧
      ((f.2.length : Int) < 2 ^ 31) ∧
      ∃ t, bt f.1 = some t ∧ t.cast f.2 (f.2.length : Int) = .ok v) pre vsPre)
    (hbad : bt bad.1 = Option.none)
    (hbad1 : -(2 ^ 31) ≤ bad.1) (hbad2 : bad.1 < 2 ^ 31)
    (hbad3 : (bad.2.length : Int) < 2 ^ 31) :
    recordLoop bt (((pre ++ bad :: rest).map fun f => encodeField f.1 f.2).join) =
      .error .unknownType := by
  induction h with
  | nil =>
    show recordLoop bt (encodeField bad.1 bad.2 ++
      (rest.map fun f => encodeField f.1 f.2).join) = .error .unknownType
    rw [recordLoop_step bt bad.1 bad.2 _ hbad1 hbad2 hbad3, hbad]
  | @cons f v fs vsr hf hrest ih =>
    obtain ⟨hb1, hb2, hb3, t, hbt, hcast⟩ := hf
    show recordLoop bt (encodeField f.1 f.2 ++
      ((fs ++ bad :: rest).map fun f => encodeField f.1 f.2).join) = .error .unknownType
    rw [recordLoop_step bt f.1 f.2 _ hb1 hb2 hb3, hbt]
    simp only
    rw [hcast]
    simp only
    rw [ih]

/-- C4.  `parse_record` returns the ordered tuple of the decoded field
values, in transmission order, each field decoded through its own OID's
registry entry; and if any field's OID is unresolved in the consulted
mapping, the whole decode fails with the unknown-type error (Python
`KeyError` on `binary_types[oid]`; the spec's `UnknownTypeError`) and no
partial tuple is produced. -/
theorem parse_record_spec (bt : Int → Option PgType) :
    (∀ (fields : List (Int × List Nat)) (vs : List PgVal),
       List.Forall₂ (fun f v => -(2 ^ 31) ≤ f.1 ∧ f.1 < 2 ^ 31 ∧
         ((f.2.length : Int) < 2 ^ 31) ∧
         ∃ t, bt f.1 = some t ∧ t.cast f.2 (f.2.length : Int) = .ok v) fields vs →
       parse_record bt (encodeRecord fields) ((encodeRecord fields).length : Int) =
         .ok (.tuple vs))
  ∧ (∀ (pre : List (Int × List Nat)) (vsPre : List PgVal) (bad : Int × List Nat)
       (rest : List (Int × List Nat)),
       List.Forall₂ (fun f v => -(2 ^ 31) ≤ f.1 ∧ f.1 < 2 ^ 31 ∧
         ((f.2.length : Int) < 2 ^ 31) ∧
         ∃ t, bt f.1 = some t ∧ t.cast f.2 (f.2.length : Int) = .ok v) pre vsPre →
       bt bad.1 = Option.none →
       -(2 ^ 31) ≤ bad.1 → bad.1 < 2 ^ 31 → (bad.2.length : Int) < 2 ^ 31 →
       parse_record bt (encodeRecord (pre ++ bad :: rest))
         ((encodeRecord (pre ++ bad :: rest)).length : Int) = .error .unknownType) := by
  have hopen : ∀ fields : List (Int × List Nat),
      parse_record bt (encodeRecord fields) ((encodeRecord fields).length : Int) =
        (recordLoop bt ((fields.map fun f => encodeField f.1 f.2).join)).bind
          (fun vs => .ok (.tuple vs)) := by
    intro fields
    rw [parse_record, pyTake_natCast, List.take_length]
    have h4 : pyTake (encodeRecord fields) (4 : Int) =
        encodeIntBE 4 (fields.length : Int) := by
      rw [show (4 : Int) = ((4 : Nat) : Int) from rfl, pyTake_natCast, encodeRecord]
      exact List.take_left' (encodeIntBE_length 4 _)
    have hd4 : pyDrop (encodeRecord fields) (4 : Int) =
        (fields.map fun f => encodeField f.1 f.2).join := by
      rw [show (4 : Int) = ((4 : Nat) : Int) from rfl, pyDrop_natCast, encodeRecord]
      exact List.drop_left' (encodeIntBE_length 4 _)
    rw [h4, hd4, unpackExact, if_pos (encodeIntBE_length 4 _)]
    simp only [bind, Except.bind]
  constructor
  · intro fields vs h
    rw [hopen, recordLoop_fields bt fields vs h]
    rfl
  · intro pre vsPre bad rest h hbad hbad1 hbad2 hbad3
    rw [hopen, recordLoop_fields_err bt pre vsPre bad rest h hbad hbad1 hbad2 hbad3]
    rfl

/-- C4, witness: decoding two int4 fields (OID 23) holding 5 and 7 yields
the tuple `(5, 7)`, and replacing the second field's OID by the unmapped 99
aborts with the unknown-type error. -/
theorem parse_record_spec_witness :
    parse_record (fun oid => if oid = 23 then some INTEGER else Option.none)
      (encodeRecord [(23, [0, 0, 0, 5]), (23, [0, 0, 0, 7])])
      ((encodeRecord [(23, [0, 0, 0, 5]), (23, [0, 0, 0, 7])]).length : Int) =
      .ok (.tuple [.int 5, .int 7])
  ∧ parse_record (fun oid => if oid = 23 then some INTEGER else Option.none)
      (encodeRecord [(23, [0, 0, 0, 5]), (99, [])])
      ((encodeRecord [(23, [0, 0, 0, 5]), (99, [])]).length : Int) =
      .error .unknownType := by
  constructor
  · exact (parse_record_spec _).1 [(23, [0, 0, 0, 5]), (23, [0, 0, 0, 7])]
      [.int 5, .int 7]
      (.cons ⟨by norm_num, by norm_num, by norm_num, INTEGER, rfl, rfl⟩
        (.cons ⟨by norm_num, by norm_num, by norm_num, INTEGER, rfl, rfl⟩ .nil))
  · exact (parse_record_spec _).2 [(23, [0, 0, 0, 5])] [.int 5] (99, []) []
      (.cons ⟨by norm_num, by norm_num, by norm_num, INTEGER, rfl, rfl⟩ .nil)
      rfl (by norm_num) (by norm_num) (by norm_num)

/-! ### C9, amended — independence from the ignored header fields on
length-prefix well-formed payloads -/

/-- Slices starting at or beyond byte offset 12 agree between two
equal-length buffers that agree pointwise from offset 12 on. -/
theorem pySlice_congr_ge12 (v1 v2 : List Nat) (hlen : v1.length = v2.length)
    (hagree : ∀ i : Nat, 12 ≤ i → v1[i]? = v2[i]?)
    (a b : Int) (ha : 12 ≤ a) :
    pySlice v1 a b = pySlice v2 a b := by
  unfold pySlice
  rw [hlen]
  apply List.ext_getElem?
  intro n
  rw [List.getElem?_take, List.getElem?_take]
  by_cases hn : n < pyBound v2.length b - pyBound v2.length a
  · rw [if_pos hn, if_pos hn, List.getElem?_drop, List.getElem?_drop]
    rcases lt_or_le (pyBound v2.length a + n) v1.length with hin | hin
    · apply hagree
      have hbound : pyBound v2.length a = min a.toNat v2.length := by
        rw [pyBound, if_neg (by omega)]
      rcases le_or_lt a.toNat v2.length with hc | hc
      · have h12 : 12 ≤ pyBound v2.length a := by
          rw [hbound, min_eq_left hc]
          omega
        omega
      · have heq : pyBound v2.length a = v2.length := by
          rw [hbound, min_eq_right (le_of_lt hc)]
        omega
    · rw [List.getElem?_eq_none (by omega), List.getElem?_eq_none (by omega)]
  · rw [if_neg hn, if_neg hn]

/-- Int32 reads at offsets ≥ 12 agree between such buffers. -/
theorem unpackI32_congr_ge12 (v1 v2 : List Nat) (hlen : v1.length = v2.length)
    (hagree : ∀ i : Nat, 12 ≤ i → v1[i]? = v2[i]?) (off : Int) (hoff : 12 ≤ off) :
    unpackI32 v1 off = unpackI32 v2 off := by
  unfold unpackI32
  rw [pySlice_congr_ge12 v1 v2 hlen hagree off (off + 4) hoff]

/-- On a length-prefix well-formed run, the element loop's final data
offset is the checker's, and stays at or beyond 12. -/
theorem arrElems_end (t : PgType) (v : List Nat) :
    ∀ (n : Nat) (doffset : Int), 12 ≤ doffset →
      (arrElemsChk v n doffset).1 = true →
      ∀ vals dend, arrElems t v n doffset = .ok (vals, dend) →
        dend = (arrElemsChk v n doffset).2 ∧ 12 ≤ dend := by
  intro n
  induction n with
  | zero =>
    intro doffset hd _ vals dend h
    obtain ⟨h1, h2⟩ := Prod.mk.injEq .. ▸ (Except.ok.inj h)
    subst h2
    exact ⟨rfl, hd⟩
  | succ n ih =>
    intro doffset hd hchk vals dend h
    rw [arrElems] at h
    cases hul : unpackI32 v doffset with
    | error e =>
      rw [hul] at h
      simp only [bind, Except.bind] at h
      exact Except.noConfusion h
    | ok l =>
      rw [hul] at h
      simp only [bind, Except.bind] at h
      rw [arrElemsChk, hul] at hchk ⊢
      simp only [Bool.and_eq_true] at hchk
      have hl : -1 ≤ l := of_decide_eq_true hchk.1
      cases hcast : t.cast (pySlice v (doffset + 4) (doffset + 4 + l)) l with
      | error e =>
        rw [hcast] at h
        exact Except.noConfusion h
      | ok w =>
        rw [hcast] at h
        cases hrec : arrElems t v n (doffset + 4 + l) with
        | error e =>
          rw [hrec] at h
          exact Except.noConfusion h
        | ok p =>
          rw [hrec] at h
          obtain ⟨h1, h2⟩ := Prod.mk.injEq .. ▸ (Except.ok.inj h)
          subst h2
          exact ih (doffset + 4 + l) (by omega) hchk.2 p.1 p.2 (by rw [hrec])

/-- On a length-prefix well-formed run, the element loop reads the same
values from two buffers agreeing from offset 12 on. -/
theorem arrElems_congr (t : PgType) (v1 v2 : List Nat) (hlen : v1.length = v2.length)
    (hagree : ∀ i : Nat, 12 ≤ i → v1[i]? = v2[i]?) :
    ∀ (n : Nat) (doffset : Int), 12 ≤ doffset →
      (arrElemsChk v1 n doffset).1 = true →
      arrElems t v1 n doffset = arrElems t v2 n doffset := by
  intro n
  induction n with
  | zero =>
    intro doffset _ _
    rfl
  | succ n ih =>
    intro doffset hd hchk
    have hu : unpackI32 v1 doffset = unpackI32 v2 doffset :=
      unpackI32_congr_ge12 v1 v2 hlen hagree doffset hd
    rw [arrElems, arrElems, ← hu]
    cases hul : unpackI32 v1 doffset with
    | error e => rfl
    | ok l =>
      simp only [bind, Except.bind]
      rw [arrElemsChk, hul] at hchk
      simp only [Bool.and_eq_true] at hchk
      have hl : -1 ≤ l := of_decide_eq_true hchk.1
      rw [← pySlice_congr_ge12 v1 v2 hlen hagree (doffset + 4) (doffset + 4 + l) (by omega)]
      cases hcast : t.cast (pySlice v1 (doffset + 4) (doffset + 4 + l)) l with
      | error e => rfl
      | ok w =>
        simp only [bind, Except.bind]
        rw [ih (doffset + 4 + l) (by omega) hchk.2]

/-- On a length-prefix well-formed run, the dimension loop reads the same
nested values from two buffers agreeing from offset 12 on. -/
theorem arrDims_congr (t : PgType) (v1 v2 : List Nat) (hlen : v1.length = v2.length)
    (hagree : ∀ i : Nat, 12 ≤ i → v1[i]? = v2[i]?) :
    ∀ (x : Nat) (offset doffset : Int), 12 ≤ offset → 12 ≤ doffset →
      arrDimsChk v1 x offset doffset = true →
      arrDims t v1 x offset doffset = arrDims t v2 x offset doffset := by
  intro x
  induction x with
  | zero =>
    intro offset doffset _ _ _
    rfl
  | succ x ih =>
    intro offset doffset ho hd hchk
    have hu : unpackI32x2 v1 offset = unpackI32x2 v2 offset := by
      unfold unpackI32x2
      rw [pySlice_congr_ge12 v1 v2 hlen hagree offset (offset + 8) ho]
    rw [arrDims, arrDims, ← hu]
    cases hud : unpackI32x2 v1 offset with
    | error e => rfl
    | ok dim =>
      simp only [bind, Except.bind]
      rw [arrDimsChk, hud] at hchk
      simp only [Bool.and_eq_true] at hchk
      rw [← arrElems_congr t v1 v2 hlen hagree (dim.2 + 1).toNat doffset hd hchk.1]
      cases hel : arrElems t v1 (dim.2 + 1).toNat doffset with
      | error e => rfl
      | ok p =>
        simp only [bind, Except.bind]
        obtain ⟨hend, h12⟩ :=
          arrElems_end t v1 (dim.2 + 1).toNat doffset hd hchk.1 p.1 p.2 (by rw [hel])
        rw [ih (offset + 8) p.2 (by omega) h12 (by rw [hend]; exact hchk.2)]

/-- C9, amended.  For length-prefix well-formed binary array payloads —
those in which every element length prefix read during decoding is −1
(NULL) or nonnegative — the decoder's result is independent of the
has-null-flag and element-OID header fields (bytes 4–11): any two
equal-length payloads agreeing everywhere outside those bytes decode
identically with the same bound element type, for every declared length;
every element is decoded by the element type bound at the decoder's
construction, which the header OID cannot influence.  (Without the
well-formedness restriction the claim fails: a negative length prefix
below −1 walks the data cursor back into the header, see the
counterexample.) -/
theorem parse_array_header_independent (t : PgType) (v1 v2 : List Nat) (l1 l2 : Int)
    (hlen : v1.length = v2.length)
    (hlow : ∀ i : Nat, i < 4 → v1[i]? = v2[i]?)
    (hhigh : ∀ i : Nat, i < v1.length → 12 ≤ i → v1[i]? = v2[i]?)
    (hwf : arrayLensOK v1 = true) :
    parse_array t v1 l1 = parse_array t v2 l2 := by
  have hhigh' : ∀ i : Nat, 12 ≤ i → v1[i]? = v2[i]? := by
    intro i h12
    rcases lt_or_le i v1.length with h | h
    · exact hhigh i h h12
    · rw [List.getElem?_eq_none h, List.getElem?_eq_none (by omega)]
  have hsl : ∀ v : List Nat, pySlice v (0 : Int) (0 + 12) = v.take 12 := by
    intro v
    rw [show ((0 : Int) + 12) = ((12 : Nat) : Int) from rfl,
      show (0 : Int) = ((0 : Nat) : Int) from rfl, pySlice_natCast]
    simp
  have hlen12 : (v1.take 12).length = (v2.take 12).length := by
    simp [hlen]
  by_cases h12 : (v2.take 12).length = 12
  case neg =>
    rw [parse_array, parse_array, unpackI32x3, unpackI32x3, hsl, hsl,
      if_neg (by rw [hlen12]; exact h12), if_neg h12]
    rfl
  case pos =>
    have hnd : toSigned 4 (bytesToNat ((v1.take 12).take 4)) =
        toSigned 4 (bytesToNat ((v2.take 12).take 4)) := by
      have ht : (v1.take 12).take 4 = (v2.take 12).take 4 := by
        rw [List.take_take, List.take_take]
        norm_num
        exact List.ext_getElem? fun n => by
          rw [List.getElem?_take, List.getElem?_take]
          by_cases hn : n < 4
          · rw [if_pos hn, if_pos hn]
            exact hlow n hn
          · rw [if_neg hn, if_neg hn]
      rw [ht]
    have hu1 : unpackI32x3 v1 0 = .ok (toSigned 4 (bytesToNat ((v2.take 12).take 4)),
        toSigned 4 (bytesToNat (((v1.take 12).drop 4).take 4)),
        toSigned 4 (bytesToNat ((v1.take 12).drop 8))) := by
      rw [unpackI32x3, hsl, if_pos (by rw [hlen12]; exact h12), hnd]
    have hu2 : unpackI32x3 v2 0 = .ok (toSigned 4 (bytesToNat ((v2.take 12).take 4)),
        toSigned 4 (bytesToNat (((v2.take 12).drop 4).take 4)),
        toSigned 4 (bytesToNat ((v2.take 12).drop 8))) := by
      rw [unpackI32x3, hsl, if_pos h12]
    have hwf' : arrDimsChk v1 (toSigned 4 (bytesToNat ((v2.take 12).take 4))).toNat 12
        (12 + toSigned 4 (bytesToNat ((v2.take 12).take 4)) * 8) = true := by
      rw [arrayLensOK, hu1] at hwf
      exact hwf
    have hdims : arrDims t v1 (toSigned 4 (bytesToNat ((v2.take 12).take 4))).toNat 12
        (12 + toSigned 4 (bytesToNat ((v2.take 12).take 4)) * 8) =
        arrDims t v2 (toSigned 4 (bytesToNat ((v2.take 12).take 4))).toNat 12
        (12 + toSigned 4 (bytesToNat ((v2.take 12).take 4)) * 8) := by
      rcases Nat.eq_zero_or_pos (toSigned 4 (bytesToNat ((v2.take 12).take 4))).toNat with hz | hp
      · rw [hz]
        rfl
      · apply arrDims_congr t v1 v2 hlen hhigh' _ 12 _ (by norm_num) (by omega) hwf'
    rw [parse_array, parse_array, hu1, hu2]
    simp only [bind, Except.bind]
    rw [hdims]

/-- C9, witness: the two well-formed `[1, 2]` int4 array payloads differing
in both ignored header fields (flags 0 vs 1, element OID 23 vs 99) decode
identically with the bound `INTEGER` element type. -/
theorem parse_array_header_independent_witness :
    parse_array INTEGER arrayPairPayloadA 36 = parse_array INTEGER arrayPairPayloadB 36 :=
  parse_array_header_independent INTEGER arrayPairPayloadA arrayPairPayloadB 36 36
    rfl (by decide) (by decide) (by decide)

/-- C8, counterexample.  A registration whose scope is a truthy object of
an unrecognized kind does not install into the global mapping as the claim
implies ("else the global mapping"): the target mapping is Python `None`
and the first per-OID assignment raises `TypeError`, so the call fails
outright instead of returning an updated registry state. -/
theorem register_type_unrecognized_scope_cex :
    register_type BOOLEAN .other
      ⟨fun _ => Option.none, fun _ => Option.none, fun _ => Option.none⟩ =
      .error .typeError := rfl
